import Mathlib

/-!
# komitees.ch — the fetch-and-cache pipeline and the search

A shallow embedding of `src/committees/main.go`.

* Go's `error` is `Option Err` (`none` is the nil error).
* A `[]byte` or `[]Committee` that the code compares with `nil` is an `Option (List _)`
  (`none` is the nil slice, `some []` an empty slice that is present).
* The HTTP service is a function from the absolute URL to what the client observes.
* Every call of `getjson` performs one request; the absolute URLs requested are threaded
  through the functions as a list, oldest first.
* `json.Unmarshal` and `strings.ToLower` belong to the Go standard library, not to the
  repository; they are parameters of the definitions that call them.
* The unbounded loop of `fetchCommittees` takes a fuel argument; `none` means the fuel ran out
  before the loop exited.
-/

namespace Komitees

set_option maxRecDepth 100000

/-- Error value carried by a non-nil Go `error`. -/
abbrev Err := String

/-- Contents of a non-nil `[]byte`. -/
abbrev Bytes := List UInt8

/-- Go struct `Member` (main.go, lines 18-24). -/
structure Member where
  Id : Int
  FirstName : String
  LastName : String
  Canton : String
  Party : String
deriving DecidableEq, Repr

/-- Go struct `CommitteeDetails` (lines 26-29). The roster is only ranged over and measured
with `len`, for which a nil slice and an empty slice agree, so it is a plain list. -/
structure CommitteeDetails where
  Id : Int
  Members : List Member
deriving DecidableEq, Repr

/-- Go struct `Committee` (lines 31-35). -/
structure Committee where
  Id : Int
  IsActive : Bool
  Name : String
deriving DecidableEq, Repr

/-- The zero value `CommitteeDetails{}`. -/
def CommitteeDetails.zero : CommitteeDetails := { Id := 0, Members := [] }

/-- What `client.Do` followed by `ioutil.ReadAll(resp.Body)` can observe for one request. -/
inductive HTTPOutcome where
  /-- The call `client.Do(req)` returned a non-nil error. -/
  | transportError (err : Err)
  /-- A response arrived with this status code; `body` and `readErr` are what
  `ioutil.ReadAll(resp.Body)` returns (the bytes read, always a non-nil slice, and its error). -/
  | response (status : Nat) (body : Bytes) (readErr : Option Err)
deriving DecidableEq, Repr

/-- The remote service: absolute URL to observed outcome. -/
abbrev Remote := String → HTTPOutcome

/-- The two uses of `json.Unmarshal` in the program, as functions of the input bytes.
`UnmarshalCommittees` decodes into a nil `[]Committee` (JSON `null` leaves it nil, hence the
`Option`); `UnmarshalDetails` decodes into a zero `CommitteeDetails`. -/
structure JSON where
  UnmarshalCommittees : Bytes → Except Err (Option (List Committee))
  UnmarshalDetails : Bytes → Except Err CommitteeDetails

/-- The absolute URL built at line 42. -/
def requestPath (url : String) : String :=
  "http://ws.parlament.ch/" ++ url ++ "&format=json"

/-- Go `getjson` (lines 40-59). Returns the pair `([]byte, error)` and the extended list of
requested URLs. -/
def getjson (remote : Remote) (url : String) (reqs : List String) :
    (Option Bytes × Option Err) × List String :=
  let path := requestPath url
  match remote path with
  | .transportError err => ((none, some err), reqs ++ [path])
  | .response status body readErr =>
    if status = 200 then ((some body, readErr), reqs ++ [path])
    else ((none, none), reqs ++ [path])

/-- The resource path of listing page `i` (line 62). -/
def pageURL (i : Int) : String := "committees?pageNumber=" ++ toString i

/-- Go `fetchCommitteesPage` (lines 61-78). -/
def fetchCommitteesPage (json : JSON) (remote : Remote) (i : Int) (reqs : List String) :
    (Option (List Committee) × Option Err) × List String :=
  let url := pageURL i
  match getjson remote url reqs with
  | ((blob, err), reqs1) =>
    match err with
    | some err => ((none, some err), reqs1)
    | none =>
      match blob with
      | none => ((none, none), reqs1)
      | some blob =>
        match json.UnmarshalCommittees blob with
        | .error err => ((none, some err), reqs1)
        | .ok committees => ((committees, none), reqs1)

/-- The statement `i++` on a Go `int`: 64 bits (its size on a 64-bit platform), two's
complement, wrapping around. -/
def incInt (i : Int) : Int :=
  (i + 1 + 9223372036854775808) % 18446744073709551616 - 9223372036854775808

/-- The inner loop of `fetchCommittees` (lines 92-96): append the active committees of one
page to `result`. -/
def appendActive (result : List Committee) (coms : List Committee) : List Committee :=
  coms.foldl (fun r c => if c.IsActive then r ++ [c] else r) result

/-- The loop `for i := ...; ; i++` of `fetchCommittees` (lines 82-98) from counter value `i`
with the accumulated `result`. -/
def fetchCommitteesLoop (json : JSON) (remote : Remote) :
    Nat → Int → List Committee → List String →
      Option ((Option (List Committee) × Option Err) × List String)
  | 0, _, _, _ => none
  | fuel + 1, i, result, reqs =>
    match fetchCommitteesPage json remote i reqs with
    | ((coms, err), reqs1) =>
      match err with
      | some err => some ((none, some err), reqs1)
      | none =>
        match coms with
        | none => some ((some result, none), reqs1)
        | some coms =>
          fetchCommitteesLoop json remote fuel (incInt i) (appendActive result coms) reqs1

/-- Go `fetchCommittees` (lines 80-99). -/
def fetchCommittees (json : JSON) (remote : Remote) (fuel : Nat) (reqs : List String) :
    Option ((Option (List Committee) × Option Err) × List String) :=
  fetchCommitteesLoop json remote fuel 1 [] reqs

/-- The resource path of the roster of committee `i` (line 102). -/
def detailsURL (i : Int) : String := "committees/" ++ toString i ++ "?pageNumber=1"

/-- Go `fetchDetails` (lines 101-114). A nil `blob` reaches `json.Unmarshal` as input of
length 0. -/
def fetchDetails (json : JSON) (remote : Remote) (i : Int) (reqs : List String) :
    (CommitteeDetails × Option Err) × List String :=
  let url := detailsURL i
  match getjson remote url reqs with
  | ((blob, err), reqs1) =>
    match err with
    | some err => ((CommitteeDetails.zero, some err), reqs1)
    | none =>
      match json.UnmarshalDetails (blob.getD []) with
      | .error err => ((CommitteeDetails.zero, some err), reqs1)
      | .ok res => ((res, none), reqs1)

/-- Whether `sub` starts the list `s`. -/
def startsWith : List Char → List Char → Bool
  | _, [] => true
  | [], _ :: _ => false
  | c :: s, d :: sub => c == d && startsWith s sub

/-- Whether `sub` occurs in `s` as a contiguous block. -/
def containsList : List Char → List Char → Bool
  | [], sub => startsWith [] sub
  | c :: s, sub => startsWith (c :: s) sub || containsList s sub

/-- Go `strings.Contains`. -/
def Contains (s substr : String) : Bool := containsList s.data substr.data

/-- Go `match` (lines 116-118); `ToLower` is `strings.ToLower`. -/
def matchPat (ToLower : String → String) (val pat : String) : Bool :=
  Contains (ToLower val) (ToLower pat)

/-- The condition of line 150: the member matches the query on some field. -/
def memberMatches (ToLower : String → String) (query : String) (m : Member) : Bool :=
  matchPat ToLower m.FirstName query || matchPat ToLower m.LastName query ||
    matchPat ToLower m.Party query || matchPat ToLower m.Canton query

/-- The local struct `Result` of `generate` (lines 134-141). -/
structure Result where
  Index : Nat
  Id : Int
  CommitteeName : String
  Members : Nat
  Match : Nat
  Url : String
deriving DecidableEq, Repr

/-- A Go `map[int]CommitteeDetails`. A nil map reads like the empty map, and the program
never writes to a nil map. -/
abbrev DetailsMap := Int → Option CommitteeDetails

/-- The map made by `make(map[int]CommitteeDetails)`. -/
def emptyMap : DetailsMap := fun _ => none

/-- The read `details[k]`: the zero value when the key is absent. -/
def mapGet (m : DetailsMap) (k : Int) : CommitteeDetails := (m k).getD CommitteeDetails.zero

/-- The write `details[k] = v`. -/
def mapSet (m : DetailsMap) (k : Int) (v : CommitteeDetails) : DetailsMap :=
  fun j => if j = k then some v else m j

/-- The package-level variables `committees` and `details` (lines 37-38). -/
structure Globals where
  committees : Option (List Committee)
  details : DetailsMap

/-- The counting loop of `generate` (lines 148-153). -/
def countMatches (ToLower : String → String) (query : String) (members : List Member) : Nat :=
  members.foldl (fun cnt m => if memberMatches ToLower query m then cnt + 1 else cnt) 0

/-- One iteration of the loop over `committees` in `generate` (lines 146-164). -/
def generateStep (ToLower : String → String) (details : DetailsMap) (query : String)
    (data : List Result) (c : Committee) : List Result :=
  let d := mapGet details c.Id
  let cnt := countMatches ToLower query d.Members
  if cnt > 0 then
    data ++ [{ Index := data.length + 1,
               Id := c.Id,
               CommitteeName := c.Name,
               Members := d.Members.length,
               Match := cnt,
               Url := "http://ws.parlament.ch/committees/" ++ toString c.Id }]
  else data

/-- Go `generate`, lines 142-166: the slice `data` handed to the template. Loading the
template before and rendering it after are outside the model. -/
def generate (ToLower : String → String) (g : Globals) (query : String) : List Result :=
  if query ≠ "" then
    (g.committees.getD []).foldl (generateStep ToLower g.details query) []
  else []

/-- How a run of `fetch` ends: it returns, or `log.Fatal` ends the process. -/
inductive Exit where
  | returned
  | fatal (err : Err)
deriving DecidableEq, Repr

/-- The state in which a run of `fetch` ends. -/
structure FetchOutcome where
  exit : Exit
  globals : Globals
  requests : List String

/-- The loop of `fetch` over the committees (lines 208-215); the map `details` is updated in
place. -/
def fetchDetailsLoop (json : JSON) (remote : Remote) :
    List Committee → DetailsMap → List String → Exit × DetailsMap × List String
  | [], details, reqs => (.returned, details, reqs)
  | c :: rest, details, reqs =>
    match fetchDetails json remote c.Id reqs with
    | ((d, err), reqs1) =>
      match err with
      | some err => (.fatal err, details, reqs1)
      | none => fetchDetailsLoop json remote rest (mapSet details c.Id d) reqs1

/-- Go `fetch` (lines 199-216), started with the globals `g`. -/
def fetch (json : JSON) (remote : Remote) (fuel : Nat) (g : Globals) (reqs : List String) :
    Option FetchOutcome :=
  match fetchCommittees json remote fuel reqs with
  | none => none
  | some ((coms, err), reqs1) =>
    match err with
    | some err =>
      some { exit := .fatal err, globals := { g with committees := coms }, requests := reqs1 }
    | none =>
      match fetchDetailsLoop json remote (coms.getD []) emptyMap reqs1 with
      | (ex, details, reqs2) =>
        some { exit := ex, globals := { committees := coms, details := details },
               requests := reqs2 }

/-! ## Quantities the statements speak about -/

/-- The pair `fetchCommitteesPage` returns for page `i`; it does not depend on the requests
made before. -/
def pageResult (json : JSON) (remote : Remote) (i : Int) :
    Option (List Committee) × Option Err :=
  (fetchCommitteesPage json remote i []).1

/-- The active committees of the pages `i, i+1, ..., i+n-1`, page after page, each page in
its own order. -/
def activeOfPages (pages : Nat → List Committee) (i n : Nat) : List Committee :=
  (List.range' i n).flatMap (fun j => (pages j).filter (fun c => c.IsActive))

/-- The requests for the listing pages `i, i+1, ..., i+n-1`, in this order. -/
def pageRequests (i n : Nat) : List String :=
  (List.range' i n).map (fun j => requestPath (pageURL (j : Int)))

/-- The globals before `fetch` has run: a nil slice and a nil map. -/
def initialGlobals : Globals := { committees := none, details := emptyMap }

/-- The pair `fetchDetails` returns for committee `i`; it does not depend on the requests
made before. -/
def detailsResult (json : JSON) (remote : Remote) (i : Int) : CommitteeDetails × Option Err :=
  (fetchDetails json remote i []).1

/-- The map after the rosters of the committees `cs` have been stored, in this order, into
`m`. -/
def storeDetails (json : JSON) (remote : Remote) (cs : List Committee) (m : DetailsMap) :
    DetailsMap :=
  cs.foldl (fun acc c => mapSet acc c.Id (detailsResult json remote c.Id).1) m

/-- The requests for the rosters of the committees `cs`, in this order. -/
def detailsRequests (cs : List Committee) : List String :=
  cs.map (fun c => requestPath (detailsURL c.Id))

/-! ## Sample data for the examples -/

/-- The bytes of an ASCII text. -/
def bytesOf (s : String) : Bytes := s.data.map (fun c => UInt8.ofNat c.toNat)

/-- A listing page with committee 1 (active) and committee 2 (inactive). -/
def listingBody : Bytes :=
  bytesOf "[\x7b\"id\":1,\"isActive\":true,\"name\":\"A\"\x7d,\x7b\"id\":2,\"isActive\":false,\"name\":\"B\"\x7d]"

/-- A listing page with the active committees 1 and 3. -/
def listingTwoActiveBody : Bytes :=
  bytesOf "[\x7b\"id\":1,\"isActive\":true,\"name\":\"A\"\x7d,\x7b\"id\":3,\"isActive\":true,\"name\":\"C\"\x7d]"

/-- The roster of committee 1. -/
def rosterBody : Bytes :=
  bytesOf "\x7b\"id\":1,\"members\":[\x7b\"id\":7,\"firstName\":\"Anna\",\"lastName\":\"Muster\",\"canton\":\"BE\",\"party\":\"SP\"\x7d,\x7b\"id\":8,\"firstName\":\"Ben\",\"lastName\":\"Keller\",\"canton\":\"ZH\",\"party\":\"FDP\"\x7d]\x7d"

/-- A listing page with the inactive committee 2 alone. -/
def listingInactiveBody : Bytes :=
  bytesOf "[\x7b\"id\":2,\"isActive\":false,\"name\":\"B\"\x7d]"

def committeeA : Committee := { Id := 1, IsActive := true, Name := "A" }

def committeeB : Committee := { Id := 2, IsActive := false, Name := "B" }

def committeeC : Committee := { Id := 3, IsActive := true, Name := "C" }

def anna : Member :=
  { Id := 7, FirstName := "Anna", LastName := "Muster", Canton := "BE", Party := "SP" }

def ben : Member :=
  { Id := 8, FirstName := "Ben", LastName := "Keller", Canton := "ZH", Party := "FDP" }

def rosterA : CommitteeDetails := { Id := 1, Members := [anna, ben] }

/-- A decoder given by the values `json.Unmarshal` has on the bodies the sample services
send: the documents above, the empty array, `null`, and the truncated document `[` and
input of length 0, both of which `json.Unmarshal` rejects with "unexpected end of JSON
input". Any other input is reported as undecodable; the examples never decode one. -/
def sampleJSON : JSON where
  UnmarshalCommittees := fun b =>
    if b = [] then .error "unexpected end of JSON input"
    else if b = bytesOf "[" then .error "unexpected end of JSON input"
    else if b = listingBody then .ok (some [committeeA, committeeB])
    else if b = listingInactiveBody then .ok (some [committeeB])
    else if b = listingTwoActiveBody then .ok (some [committeeA, committeeC])
    else if b = bytesOf "[]" then .ok (some [])
    else if b = bytesOf "null" then .ok none
    else .error "json: cannot unmarshal"
  UnmarshalDetails := fun b =>
    if b = [] then .error "unexpected end of JSON input"
    else if b = rosterBody then .ok rosterA
    else .error "json: cannot unmarshal"

/-- A service given by a table of URLs; every URL outside the table answers 404. -/
def remoteOf (table : List (String × HTTPOutcome)) : Remote :=
  fun path => (table.lookup path).getD (.response 404 [] none)

/-- One listing page (committees 1 and 2), the roster of committee 1. -/
def remoteOnePage : Remote :=
  remoteOf [(requestPath (pageURL 1), .response 200 listingBody none),
            (requestPath (detailsURL 1), .response 200 rosterBody none)]

/-- Page 1 answers 200 with a body of length 0. -/
def remoteEmptyBody : Remote :=
  remoteOf [(requestPath (pageURL 1), .response 200 [] none)]

/-- One listing page with the active committees 1 and 3; the roster of committee 1 is
served, the roster of committee 3 answers 404. -/
def remoteDetailMissing : Remote :=
  remoteOf [(requestPath (pageURL 1), .response 200 listingTwoActiveBody none),
            (requestPath (detailsURL 1), .response 200 rosterBody none)]

/-- Page 1 is served, the request for page 2 fails in transport. -/
def remoteTimeout : Remote :=
  remoteOf [(requestPath (pageURL 1), .response 200 listingBody none),
            (requestPath (pageURL 2), .transportError "dial tcp: i/o timeout")]

/-- Page 1 is the empty array, page 2 lists committees 1 and 2, page 3 answers 404. -/
def remoteEmptyPage : Remote :=
  remoteOf [(requestPath (pageURL 1), .response 200 (bytesOf "[]") none),
            (requestPath (pageURL 2), .response 200 listingBody none)]

/-- Page 1 is served, page 2 answers 200 with the truncated document `[`. -/
def remoteTruncated : Remote :=
  remoteOf [(requestPath (pageURL 1), .response 200 listingBody none),
            (requestPath (pageURL 2), .response 200 (bytesOf "[") none)]

/-- Page 1 lists the inactive committee 2 alone, page 2 lists committees 1 and 2, page 3
answers 404. -/
def remoteInactivePage : Remote :=
  remoteOf [(requestPath (pageURL 1), .response 200 listingInactiveBody none),
            (requestPath (pageURL 2), .response 200 listingBody none)]

/-- The pages of `remoteInactivePage`. -/
def pagesInactiveFirst : Nat → List Committee :=
  fun j => if j = 1 then [committeeB] else [committeeA, committeeB]

/-- The pages of `remoteOnePage`, `remoteTimeout` and `remoteTruncated`. -/
def pagesOnePage : Nat → List Committee := fun _ => [committeeA, committeeB]

/-- The pages of `remoteEmptyPage`. -/
def pagesEmptyFirst : Nat → List Committee :=
  fun j => if j = 1 then [] else [committeeA, committeeB]

/-- The value of `strings.ToLower` on ASCII text: the letters A-Z become a-z. -/
def asciiToLower (s : String) : String := String.mk (s.data.map Char.toLower)

/-- A second member whose first name contains "an". -/
def hans : Member :=
  { Id := 9, FirstName := "Hans", LastName := "Frei", Canton := "AG", Party := "GLP" }

/-- An Index with three committees: the roster of committee 1 has Anna and Ben, committee 2
has Ben only, committee 3 has Hans and Anna. -/
def sampleIndex : Globals :=
  { committees := some [committeeA, committeeB, committeeC],
    details := mapSet (mapSet (mapSet emptyMap 1 rosterA) 2 { Id := 2, Members := [ben] })
      3 { Id := 3, Members := [hans, anna] } }

/-- An Index with committee 1 alone, its roster having the first names Anna and Ben. -/
def annaBenIndex : Globals :=
  { committees := some [committeeA], details := mapSet emptyMap 1 rosterA }

/-- The row of committee 1 for the query "an" over `annaBenIndex`. -/
def annaBenRow : Result :=
  { Index := 1, Id := 1, CommitteeName := "A", Members := 2, Match := 1,
    Url := "http://ws.parlament.ch/committees/1" }

/-! ## The search, as the specification words it -/

/-- The text `sub` occurs in `s` as a contiguous block. -/
def Occurs (s sub : List Char) : Prop := ∃ front back, s = front ++ sub ++ back

/-- The value contains the query as a case-insensitive substring: the lower-cased value
contains the lower-cased query. -/
def ContainsFolded (ToLower : String → String) (val query : String) : Prop :=
  Occurs (ToLower val).data (ToLower query).data

/-- The roster the mapping holds for a committee id; an id that is no key has no members. -/
def specRoster (details : DetailsMap) (id : Int) : List Member :=
  match details id with
  | some d => d.Members
  | none => []

/-- The match count as the specification words it: the number of members of the committee's
roster whose first name, last name, party or canton contains the query as a case-insensitive
substring (the lower-cased query is a contiguous block of the lower-cased value); a member
counts once however many of its fields match. -/
def specMatchCount (ToLower : String → String) (details : DetailsMap) (query : String)
    (c : Committee) : Nat :=
  ((specRoster details c.Id).filter (fun m => decide
    ((ToLower query).data <:+: (ToLower m.FirstName).data
      ∨ (ToLower query).data <:+: (ToLower m.LastName).data
      ∨ (ToLower query).data <:+: (ToLower m.Party).data
      ∨ (ToLower query).data <:+: (ToLower m.Canton).data))).length

/-- The counting loop of `generate` applied to the roster `generate` reads for the
committee. -/
def matchCount (ToLower : String → String) (details : DetailsMap) (query : String)
    (c : Committee) : Nat :=
  (mapGet details c.Id).Members.countP (memberMatches ToLower query)

/-- The result row of committee `c` at rank `idx`. -/
def resultRow (ToLower : String → String) (details : DetailsMap) (query : String)
    (idx : Nat) (c : Committee) : Result :=
  { Index := idx,
    Id := c.Id,
    CommitteeName := c.Name,
    Members := (mapGet details c.Id).Members.length,
    Match := matchCount ToLower details query c,
    Url := "http://ws.parlament.ch/committees/" ++ toString c.Id }

/-- The rows of the committees `cs` at the ranks `n+1, n+2, ...`. -/
def rankedFrom (ToLower : String → String) (details : DetailsMap) (query : String) :
    Nat → List Committee → List Result
  | _, [] => []
  | n, c :: cs =>
    resultRow ToLower details query (n + 1) c :: rankedFrom ToLower details query (n + 1) cs

/-! ## Pagination -/

theorem getjson_requests (remote : Remote) (url : String) (reqs : List String) :
    getjson remote url reqs = ((getjson remote url []).1, reqs ++ [requestPath url]) := by
  simp only [getjson]
  cases h : remote (requestPath url) with
  | transportError err => simp
  | response status body readErr =>
    by_cases h2 : status = 200 <;> simp [h2]

theorem fetchCommitteesPage_requests (json : JSON) (remote : Remote) (i : Int)
    (reqs : List String) :
    fetchCommitteesPage json remote i reqs
      = (pageResult json remote i, reqs ++ [requestPath (pageURL i)]) := by
  simp only [pageResult, fetchCommitteesPage]
  rw [getjson_requests remote (pageURL i) reqs]
  rcases hg : (getjson remote (pageURL i) []).1 with ⟨blob, err⟩
  have hg2 : getjson remote (pageURL i) []
      = ((blob, err), [] ++ [requestPath (pageURL i)]) := by
    rw [getjson_requests remote (pageURL i) [], hg]
  rw [hg2]
  cases err with
  | some e => rfl
  | none =>
    cases blob with
    | none => rfl
    | some b =>
      simp only
      cases json.UnmarshalCommittees b <;> rfl

theorem appendActive_eq (result coms : List Committee) :
    appendActive result coms = result ++ coms.filter (fun c => c.IsActive) := by
  unfold appendActive
  induction coms generalizing result with
  | nil => simp
  | cons c cs ih =>
    rw [List.foldl_cons, ih]
    cases h : c.IsActive <;> simp [h]

theorem incInt_natCast (i : Nat) (h : i + 1 < 9223372036854775808) :
    incInt (i : Int) = ((i + 1 : Nat) : Int) := by
  unfold incInt
  omega

theorem activeOfPages_succ (pages : Nat → List Committee) (i n : Nat) :
    activeOfPages pages i (n + 1)
      = (pages i).filter (fun c => c.IsActive) ++ activeOfPages pages (i + 1) n := by
  simp [activeOfPages, List.range'_succ]

theorem pageRequests_succ (i n : Nat) :
    pageRequests i (n + 1) = requestPath (pageURL (i : Int)) :: pageRequests (i + 1) n := by
  simp [pageRequests, List.range'_succ]

/-- Running the loop over `n` pages that decode to lists. -/
theorem fetchCommitteesLoop_advance (json : JSON) (remote : Remote)
    (pages : Nat → List Committee) (n : Nat) :
    ∀ (i fuel : Nat) (result : List Committee) (reqs : List String),
      i + n < 9223372036854775808 →
      (∀ j, i ≤ j → j < i + n → pageResult json remote (j : Int) = (some (pages j), none)) →
      fetchCommitteesLoop json remote (fuel + n) (i : Int) result reqs
        = fetchCommitteesLoop json remote fuel ((i + n : Nat) : Int)
            (result ++ activeOfPages pages i n) (reqs ++ pageRequests i n) := by
  induction n with
  | zero =>
    intro i fuel result reqs _ _
    simp [activeOfPages, pageRequests]
  | succ n ih =>
    intro i fuel result reqs hb hp
    have hpi := hp i (Nat.le_refl i) (by omega)
    have hstep : fetchCommitteesLoop json remote (fuel + n + 1) (i : Int) result reqs
        = fetchCommitteesLoop json remote (fuel + n) (incInt (i : Int))
            (appendActive result (pages i)) (reqs ++ [requestPath (pageURL (i : Int))]) := by
      rw [fetchCommitteesLoop, fetchCommitteesPage_requests, hpi]
    rw [← Nat.add_assoc, hstep, incInt_natCast i (by omega), appendActive_eq,
      ih (i + 1) fuel _ _ (by omega) (fun j h1 h2 => hp j (by omega) (by omega)),
      activeOfPages_succ, pageRequests_succ]
    have e : i + 1 + n = i + (n + 1) := by omega
    simp [e, List.append_assoc]

/-- The loop at a page without content: it exits with the accumulated result. -/
theorem fetchCommitteesLoop_stop (json : JSON) (remote : Remote) (fuel : Nat) (i : Int)
    (result : List Committee) (reqs : List String)
    (h : pageResult json remote i = (none, none)) :
    fetchCommitteesLoop json remote (fuel + 1) i result reqs
      = some ((some result, none), reqs ++ [requestPath (pageURL i)]) := by
  rw [fetchCommitteesLoop, fetchCommitteesPage_requests, h]

/-- The loop at a page that fails: it exits with the error and a nil slice. -/
theorem fetchCommitteesLoop_fail (json : JSON) (remote : Remote) (fuel : Nat) (i : Int)
    (result : List Committee) (reqs : List String) (coms : Option (List Committee)) (e : Err)
    (h : pageResult json remote i = (coms, some e)) :
    fetchCommitteesLoop json remote (fuel + 1) i result reqs
      = some ((none, some e), reqs ++ [requestPath (pageURL i)]) := by
  rw [fetchCommitteesLoop, fetchCommitteesPage_requests, h]


/-- C1. Pages `1..k-1` decode to lists and page `k` (a page number of Go type `int`, so below
`2^63`) has no content: with fuel for `k` pages `fetchCommittees` returns, without error, the
active committees of pages `1..k-1` page after page in page order, after requesting exactly
pages `1..k`; for `k = 1` the result is the empty slice; and a service that answers pages
`1..k` the same way gives the same run whatever it answers for later pages. -/
theorem fetchCommittees_returns_active_pages (json : JSON) (remote : Remote) (k : Nat)
    (pages : Nat → List Committee) (hk : 1 ≤ k) (hint : k < 9223372036854775808)
    (hlist : ∀ j, 1 ≤ j → j < k → pageResult json remote (j : Int) = (some (pages j), none))
    (hend : pageResult json remote (k : Int) = (none, none)) :
    (∀ fuel reqs, k ≤ fuel → fetchCommittees json remote fuel reqs
        = some ((some (activeOfPages pages 1 (k - 1)), none), reqs ++ pageRequests 1 k))
    ∧ (k = 1 → ∀ fuel reqs, 1 ≤ fuel → fetchCommittees json remote fuel reqs
        = some ((some [], none), reqs ++ [requestPath (pageURL 1)]))
    ∧ (∀ remote2 : Remote,
        (∀ j : Nat, 1 ≤ j → j ≤ k →
          pageResult json remote2 (j : Int) = pageResult json remote (j : Int)) →
        ∀ fuel reqs, k ≤ fuel →
          fetchCommittees json remote2 fuel reqs = fetchCommittees json remote fuel reqs) := by
  have run : ∀ (r : Remote),
      (∀ j : Nat, 1 ≤ j → j ≤ k → pageResult json r (j : Int) = pageResult json remote (j : Int)) →
      ∀ fuel reqs, k ≤ fuel → fetchCommittees json r fuel reqs
        = some ((some (activeOfPages pages 1 (k - 1)), none), reqs ++ pageRequests 1 k) := by
    intro r hr fuel reqs hf
    obtain ⟨f, rfl⟩ : ∃ f, fuel = (f + 1) + (k - 1) := ⟨fuel - k, by omega⟩
    have hadv := fetchCommitteesLoop_advance json r pages (k - 1) 1 (f + 1) [] reqs (by omega)
      (fun j h1 h2 => by rw [hr j h1 (by omega)]; exact hlist j h1 (by omega))
    have hk1 : 1 + (k - 1) = k := by omega
    rw [hk1] at hadv
    have hstop := fetchCommitteesLoop_stop json r f (k : Int)
      ([] ++ activeOfPages pages 1 (k - 1)) (reqs ++ pageRequests 1 (k - 1))
      (by rw [hr k hk (Nat.le_refl k)]; exact hend)
    have hreq : reqs ++ pageRequests 1 (k - 1) ++ [requestPath (pageURL (k : Int))]
        = reqs ++ pageRequests 1 k := by
      have : pageRequests 1 k = pageRequests 1 (k - 1) ++ [requestPath (pageURL (k : Int))] := by
        obtain ⟨m, rfl⟩ : ∃ m, k = m + 1 := ⟨k - 1, by omega⟩
        simp [pageRequests, List.range'_concat, Nat.add_comm]
      rw [this, List.append_assoc]
    unfold fetchCommittees
    have hone : ((1 : Nat) : Int) = 1 := rfl
    rw [hone] at hadv
    rw [hadv, hstop, hreq, List.nil_append]
  refine ⟨fun fuel reqs hf => run remote (fun _ _ _ => rfl) fuel reqs hf, ?_, ?_⟩
  · intro h1 fuel reqs hf
    subst h1
    have := run remote (fun _ _ _ => rfl) fuel reqs hf
    simpa [activeOfPages, pageRequests] using this
  · intro remote2 h2 fuel reqs hf
    rw [run remote2 h2 fuel reqs hf, run remote (fun _ _ _ => rfl) fuel reqs hf]


theorem pageResult_onePage_first :
    pageResult sampleJSON remoteOnePage 1 = (some [committeeA, committeeB], none) := by
  decide

theorem pageResult_onePage_second : pageResult sampleJSON remoteOnePage 2 = (none, none) := by
  decide

/-- C1 at a service with one page listing committee 1 (active) and committee 2 (inactive),
page 2 answering 404. -/
theorem fetchCommittees_returns_active_pages_witness :
    (1 ≤ 2 ∧ 2 < 9223372036854775808)
    ∧ pageResult sampleJSON remoteOnePage ((1 : Nat) : Int) = (some (pagesOnePage 1), none)
    ∧ pageResult sampleJSON remoteOnePage ((2 : Nat) : Int) = (none, none)
    ∧ fetchCommittees sampleJSON remoteOnePage 2 []
        = some ((some [committeeA], none), [requestPath (pageURL 1), requestPath (pageURL 2)]) :=
  ⟨by decide, pageResult_onePage_first, pageResult_onePage_second,
    (fetchCommittees_returns_active_pages sampleJSON remoteOnePage 2 pagesOnePage
      (by decide) (by decide)
      (fun j h1 h2 => by
        obtain rfl : j = 1 := by omega
        exact pageResult_onePage_first)
      pageResult_onePage_second).1 2 [] (Nat.le_refl 2)⟩


/-- When the page result carries an error: the transport failed, reading the body of a 200
response failed, or the body of a 200 response did not decode. -/
theorem pageResult_error_iff (json : JSON) (remote : Remote) (i : Int) (e : Err) :
    (pageResult json remote i).2 = some e ↔
      remote (requestPath (pageURL i)) = .transportError e
      ∨ (∃ body, remote (requestPath (pageURL i)) = .response 200 body (some e))
      ∨ (∃ body, remote (requestPath (pageURL i)) = .response 200 body none
          ∧ json.UnmarshalCommittees body = .error e) := by
  simp only [pageResult, fetchCommitteesPage, getjson]
  cases h : remote (requestPath (pageURL i)) with
  | transportError err => simp
  | response status body readErr =>
    by_cases hs : status = 200
    · subst hs
      cases readErr with
      | some e2 => simp
      | none =>
        cases hu : json.UnmarshalCommittees body <;> simp [hu]
    · cases readErr <;> simp [hs]

/-- A failing page result has a nil slice. -/
theorem pageResult_error_nil (json : JSON) (remote : Remote) (i : Int) (e : Err)
    (h : (pageResult json remote i).2 = some e) : pageResult json remote i = (none, some e) := by
  revert h
  simp only [pageResult, fetchCommitteesPage, getjson]
  cases remote (requestPath (pageURL i)) with
  | transportError err => simp
  | response status body readErr =>
    by_cases hs : status = 200
    · subst hs
      cases readErr with
      | some e2 => simp
      | none =>
        cases hu : json.UnmarshalCommittees body <;> simp [hu]
    · cases readErr <;> simp [hs]

theorem pageRequests_concat (k : Nat) (hk : 1 ≤ k) :
    pageRequests 1 (k - 1) ++ [requestPath (pageURL (k : Int))] = pageRequests 1 k := by
  obtain ⟨m, rfl⟩ : ∃ m, k = m + 1 := ⟨k - 1, by omega⟩
  simp [pageRequests, List.range'_concat, Nat.add_comm]

/-- Pages `1..k-1` decode to lists and page `k` has no content: the run with fuel for `k`
pages. -/
theorem fetchCommittees_stop_at (json : JSON) (remote : Remote) (k : Nat)
    (pages : Nat → List Committee) (hk : 1 ≤ k) (hint : k < 9223372036854775808)
    (hlist : ∀ j, 1 ≤ j → j < k → pageResult json remote (j : Int) = (some (pages j), none))
    (hend : pageResult json remote (k : Int) = (none, none)) :
    ∀ fuel reqs, k ≤ fuel → fetchCommittees json remote fuel reqs
      = some ((some (activeOfPages pages 1 (k - 1)), none), reqs ++ pageRequests 1 k) := by
  intro fuel reqs hf
  obtain ⟨f, rfl⟩ : ∃ f, fuel = (f + 1) + (k - 1) := ⟨fuel - k, by omega⟩
  have hadv := fetchCommitteesLoop_advance json remote pages (k - 1) 1 (f + 1) [] reqs
    (by omega) (fun j h1 h2 => hlist j h1 (by omega))
  have hk1 : 1 + (k - 1) = k := by omega
  have hone : ((1 : Nat) : Int) = 1 := rfl
  rw [hk1, hone] at hadv
  unfold fetchCommittees
  rw [hadv, fetchCommitteesLoop_stop json remote f (k : Int) _ _ hend, List.append_assoc,
    pageRequests_concat k hk, List.nil_append]

/-- Pages `1..k-1` decode to lists and page `k` fails: the run with fuel for `k` pages. -/
theorem fetchCommittees_fail_at (json : JSON) (remote : Remote) (k : Nat)
    (pages : Nat → List Committee) (e : Err) (hk : 1 ≤ k) (hint : k < 9223372036854775808)
    (hlist : ∀ j, 1 ≤ j → j < k → pageResult json remote (j : Int) = (some (pages j), none))
    (hfail : (pageResult json remote (k : Int)).2 = some e) :
    ∀ fuel reqs, k ≤ fuel → fetchCommittees json remote fuel reqs
      = some ((none, some e), reqs ++ pageRequests 1 k) := by
  intro fuel reqs hf
  obtain ⟨f, rfl⟩ : ∃ f, fuel = (f + 1) + (k - 1) := ⟨fuel - k, by omega⟩
  have hadv := fetchCommitteesLoop_advance json remote pages (k - 1) 1 (f + 1) [] reqs
    (by omega) (fun j h1 h2 => hlist j h1 (by omega))
  have hk1 : 1 + (k - 1) = k := by omega
  have hone : ((1 : Nat) : Int) = 1 := rfl
  rw [hk1, hone] at hadv
  have hstop := fetchCommitteesLoop_fail json remote f (k : Int)
    ([] ++ activeOfPages pages 1 (k - 1)) (reqs ++ pageRequests 1 (k - 1)) none e
    (pageResult_error_nil json remote k e hfail)
  unfold fetchCommittees
  rw [hadv, hstop, List.append_assoc, pageRequests_concat k hk]

/-- C7. Pages `1..n-1` decode to lists and page `n` fails with error `e`: the client reports
a transport error, or reading the body of the 200 response fails, or the body of the 200
response does not decode. With fuel for `n` pages `fetchCommittees` returns the nil slice
together with `e`, whatever was accumulated from the earlier pages, and the requests it made
are those for pages `1..n` and no other. -/
theorem fetchCommittees_page_error (json : JSON) (remote : Remote) (n : Nat)
    (pages : Nat → List Committee) (e : Err) (hn : 1 ≤ n) (hint : n < 9223372036854775808)
    (hlist : ∀ j, 1 ≤ j → j < n → pageResult json remote (j : Int) = (some (pages j), none))
    (hfail : remote (requestPath (pageURL (n : Int))) = .transportError e
      ∨ (∃ body, remote (requestPath (pageURL (n : Int))) = .response 200 body (some e))
      ∨ (∃ body, remote (requestPath (pageURL (n : Int))) = .response 200 body none
          ∧ json.UnmarshalCommittees body = .error e)) :
    ∀ fuel reqs, n ≤ fuel → fetchCommittees json remote fuel reqs
      = some ((none, some e), reqs ++ pageRequests 1 n) :=
  fetchCommittees_fail_at json remote n pages e hn hint hlist
    ((pageResult_error_iff json remote n e).mpr hfail)

theorem pageResult_timeout_first :
    pageResult sampleJSON remoteTimeout 1 = (some [committeeA, committeeB], none) := by
  decide

theorem pageResult_truncated_first :
    pageResult sampleJSON remoteTruncated 1 = (some [committeeA, committeeB], none) := by
  decide

/-- C7 at two services whose page 1 lists an active committee: the request for page 2 fails
in transport, and page 2 answers 200 with a truncated document. In both runs the active
committee of page 1 is not returned. -/
theorem fetchCommittees_page_error_witness :
    (remoteTimeout (requestPath (pageURL ((2 : Nat) : Int)))
        = .transportError "dial tcp: i/o timeout"
      ∧ fetchCommittees sampleJSON remoteTimeout 2 []
        = some ((none, some "dial tcp: i/o timeout"),
                [requestPath (pageURL 1), requestPath (pageURL 2)]))
    ∧ (remoteTruncated (requestPath (pageURL ((2 : Nat) : Int)))
        = .response 200 (bytesOf "[") none
      ∧ sampleJSON.UnmarshalCommittees (bytesOf "[") = .error "unexpected end of JSON input"
      ∧ fetchCommittees sampleJSON remoteTruncated 2 []
        = some ((none, some "unexpected end of JSON input"),
                [requestPath (pageURL 1), requestPath (pageURL 2)])) :=
  ⟨⟨by decide,
    fetchCommittees_page_error sampleJSON remoteTimeout 2 pagesOnePage "dial tcp: i/o timeout"
      (by decide) (by decide)
      (fun j h1 h2 => by
        obtain rfl : j = 1 := by omega
        exact pageResult_timeout_first)
      (Or.inl (by decide)) 2 [] (Nat.le_refl 2)⟩,
   ⟨by decide, rfl,
    fetchCommittees_page_error sampleJSON remoteTruncated 2 pagesOnePage
      "unexpected end of JSON input" (by decide) (by decide)
      (fun j h1 h2 => by
        obtain rfl : j = 1 := by omega
        exact pageResult_truncated_first)
      (Or.inr (Or.inr ⟨bytesOf "[", by decide, rfl⟩)) 2 [] (Nat.le_refl 2)⟩⟩

/-- A listing response with a status other than 200 is a page without content. -/
theorem pageResult_non200 (json : JSON) (remote : Remote) (i : Int) (status : Nat)
    (body : Bytes) (readErr : Option Err) (hs : status ≠ 200)
    (h : remote (requestPath (pageURL i)) = .response status body readErr) :
    pageResult json remote i = (none, none) := by
  simp [pageResult, fetchCommitteesPage, getjson, h, hs]

/-- A 200 listing response whose body was read without error is decoded. -/
theorem pageResult_200 (json : JSON) (remote : Remote) (i : Int) (body : Bytes)
    (h : remote (requestPath (pageURL i)) = .response 200 body none) :
    pageResult json remote i =
      match json.UnmarshalCommittees body with
      | .error err => (none, some err)
      | .ok committees => (committees, none) := by
  simp only [pageResult, fetchCommitteesPage, getjson, h]
  cases hu : json.UnmarshalCommittees body <;> simp [hu]

/-- C8, as the code has it. Pages `1..n-1` decode to lists. A response for page `n` with a
status other than 200 ends the pages: `fetchCommittees` returns without error the active
committees of pages `1..n-1`. A 200 response with a body of length 0 does not: the body goes
to the decoder, and when the decoder rejects input of length 0 with `e` (as `json.Unmarshal`
does), `fetchCommittees` returns `e` and the nil slice. -/
theorem fetchCommittees_non200_ends_empty_body_fails (json : JSON) (remote : Remote) (n : Nat)
    (pages : Nat → List Committee) (hn : 1 ≤ n) (hint : n < 9223372036854775808)
    (hlist : ∀ j, 1 ≤ j → j < n → pageResult json remote (j : Int) = (some (pages j), none)) :
    (∀ status body readErr, status ≠ 200 →
      remote (requestPath (pageURL (n : Int))) = .response status body readErr →
      ∀ fuel reqs, n ≤ fuel → fetchCommittees json remote fuel reqs
        = some ((some (activeOfPages pages 1 (n - 1)), none), reqs ++ pageRequests 1 n))
    ∧ (∀ e, remote (requestPath (pageURL (n : Int))) = .response 200 [] none →
      json.UnmarshalCommittees [] = .error e →
      ∀ fuel reqs, n ≤ fuel → fetchCommittees json remote fuel reqs
        = some ((none, some e), reqs ++ pageRequests 1 n)) := by
  have adv : ∀ f reqs, fetchCommitteesLoop json remote ((f + 1) + (n - 1)) 1 [] reqs
      = fetchCommitteesLoop json remote (f + 1) (n : Int)
          ([] ++ activeOfPages pages 1 (n - 1)) (reqs ++ pageRequests 1 (n - 1)) := by
    intro f reqs
    have hadv := fetchCommitteesLoop_advance json remote pages (n - 1) 1 (f + 1) [] reqs
      (by omega) (fun j h1 h2 => hlist j h1 (by omega))
    have hn1 : 1 + (n - 1) = n := by omega
    have hone : ((1 : Nat) : Int) = 1 := rfl
    rw [hn1, hone] at hadv
    exact hadv
  constructor
  · intro status body readErr hs hr fuel reqs hf
    obtain ⟨f, rfl⟩ : ∃ f, fuel = (f + 1) + (n - 1) := ⟨fuel - n, by omega⟩
    unfold fetchCommittees
    rw [adv, fetchCommitteesLoop_stop json remote f (n : Int) _ _
      (pageResult_non200 json remote n status body readErr hs hr),
      List.append_assoc, pageRequests_concat n hn, List.nil_append]
  · intro e hr he fuel reqs hf
    obtain ⟨f, rfl⟩ : ∃ f, fuel = (f + 1) + (n - 1) := ⟨fuel - n, by omega⟩
    have hp : pageResult json remote (n : Int) = (none, some e) := by
      rw [pageResult_200 json remote n [] hr, he]
    unfold fetchCommittees
    rw [adv, fetchCommitteesLoop_fail json remote f (n : Int) _ _ none e hp,
      List.append_assoc, pageRequests_concat n hn]

/-- C8 as stated fails: page 1 answers 200 with a body of length 0, and `fetchCommittees`
returns a decode error and the nil slice instead of the empty result without error. -/
theorem fetchCommittees_empty_body_counterexample :
    remoteEmptyBody (requestPath (pageURL 1)) = .response 200 [] none
    ∧ getjson remoteEmptyBody (pageURL 1) [] = ((some [], none), [requestPath (pageURL 1)])
    ∧ fetchCommittees sampleJSON remoteEmptyBody 3 []
        = some ((none, some "unexpected end of JSON input"), [requestPath (pageURL 1)])
    ∧ fetchCommittees sampleJSON remoteEmptyBody 3 []
        ≠ some ((some [], none), [requestPath (pageURL 1)]) := by
  decide

/-- C8 (as the code has it) at two services: page 2 answering 404 after a page with one
active committee, and page 1 answering 200 with a body of length 0. -/
theorem fetchCommittees_non200_ends_empty_body_fails_witness :
    (remoteOnePage (requestPath (pageURL ((2 : Nat) : Int))) = .response 404 [] none
      ∧ fetchCommittees sampleJSON remoteOnePage 2 []
          = some ((some [committeeA], none), [requestPath (pageURL 1), requestPath (pageURL 2)]))
    ∧ (remoteEmptyBody (requestPath (pageURL ((1 : Nat) : Int))) = .response 200 [] none
      ∧ sampleJSON.UnmarshalCommittees [] = .error "unexpected end of JSON input"
      ∧ fetchCommittees sampleJSON remoteEmptyBody 1 []
          = some ((none, some "unexpected end of JSON input"), [requestPath (pageURL 1)])) :=
  ⟨⟨by decide,
    (fetchCommittees_non200_ends_empty_body_fails sampleJSON remoteOnePage 2 pagesOnePage
      (by decide) (by decide)
      (fun j h1 h2 => by
        obtain rfl : j = 1 := by omega
        exact pageResult_onePage_first)).1 404 [] none (by decide) (by decide)
      2 [] (Nat.le_refl 2)⟩,
   ⟨by decide, rfl,
    (fetchCommittees_non200_ends_empty_body_fails sampleJSON remoteEmptyBody 1 pagesOnePage
      (by decide) (by decide)
      (fun j h1 h2 => by omega)).2 "unexpected end of JSON input" (by decide) rfl
      1 [] (Nat.le_refl 1)⟩⟩


theorem activeOfPages_append (pages : Nat → List Committee) (i a b : Nat) :
    activeOfPages pages i (a + b) = activeOfPages pages i a ++ activeOfPages pages (i + a) b := by
  induction a generalizing i with
  | zero => simp [activeOfPages]
  | succ a ih =>
    have e : a + 1 + b = (a + b) + 1 := by omega
    rw [e, activeOfPages_succ, activeOfPages_succ, ih (i + 1), List.append_assoc]
    have e2 : i + 1 + a = i + (a + 1) := by omega
    rw [e2]

/-- Whatever the loop returns extends the requests made so far, and a result without error
extends the accumulated slice. -/
theorem fetchCommitteesLoop_extends (json : JSON) (remote : Remote) (fuel : Nat) :
    ∀ (i : Int) (result : List Committee) (reqs : List String)
      (out : (Option (List Committee) × Option Err) × List String),
      fetchCommitteesLoop json remote fuel i result reqs = some out →
      (∃ later, out.2 = reqs ++ later) ∧
        (out.1.2 = none → ∃ rest, out.1.1 = some (result ++ rest)) := by
  induction fuel with
  | zero => intro i result reqs out h; simp [fetchCommitteesLoop] at h
  | succ fuel ih =>
    intro i result reqs out h
    rw [fetchCommitteesLoop, fetchCommitteesPage_requests] at h
    rcases hp : pageResult json remote i with ⟨coms, err⟩
    rw [hp] at h
    cases err with
    | some e =>
      simp only [Option.some.injEq] at h
      subst h
      exact ⟨⟨_, rfl⟩, fun h2 => by simp at h2⟩
    | none =>
      cases coms with
      | none =>
        simp only [Option.some.injEq] at h
        subst h
        exact ⟨⟨_, rfl⟩, fun _ => ⟨[], by simp⟩⟩
      | some cs =>
        simp only at h
        obtain ⟨⟨later, hl⟩, hr⟩ := ih _ _ _ _ h
        refine ⟨⟨requestPath (pageURL i) :: later, by rw [hl]; simp⟩, fun h2 => ?_⟩
        obtain ⟨rest, hrest⟩ := hr h2
        exact ⟨cs.filter (fun c => c.IsActive) ++ rest, by
          rw [hrest, appendActive_eq, List.append_assoc]⟩

/-- The loop at a page that decodes to a list: it goes on with the next counter value. -/
theorem fetchCommitteesLoop_step (json : JSON) (remote : Remote) (fuel : Nat) (i : Int)
    (result cs : List Committee) (reqs : List String)
    (h : pageResult json remote i = (some cs, none)) :
    fetchCommitteesLoop json remote (fuel + 1) i result reqs
      = fetchCommitteesLoop json remote fuel (incInt i) (appendActive result cs)
          (reqs ++ [requestPath (pageURL i)]) := by
  rw [fetchCommitteesLoop, fetchCommitteesPage_requests, h]

/-- The loop returns only at a page that has no content or fails. -/
theorem fetchCommitteesLoop_exit_cause (json : JSON) (remote : Remote) (fuel : Nat) :
    ∀ (i : Int) (result : List Committee) (reqs : List String)
      (out : (Option (List Committee) × Option Err) × List String),
      fetchCommitteesLoop json remote fuel i result reqs = some out →
      ∃ j : Int, pageResult json remote j = (none, none)
        ∨ ∃ e, pageResult json remote j = (none, some e) := by
  induction fuel with
  | zero => intro i result reqs out h; simp [fetchCommitteesLoop] at h
  | succ fuel ih =>
    intro i result reqs out h
    rw [fetchCommitteesLoop, fetchCommitteesPage_requests] at h
    rcases hp : pageResult json remote i with ⟨coms, err⟩
    rw [hp] at h
    cases err with
    | some e =>
      exact ⟨i, Or.inr ⟨e, pageResult_error_nil json remote i e (by rw [hp])⟩⟩
    | none =>
      cases coms with
      | none => exact ⟨i, Or.inl hp⟩
      | some cs => exact ih _ _ _ _ h

/-- The active committees of pages `1..k-1` when page `n` has none. -/
theorem activeOfPages_skip (pages : Nat → List Committee) (n k : Nat) (hn : 1 ≤ n)
    (hk : n + 1 < k) (hinactive : ∀ c ∈ pages n, c.IsActive = false) :
    activeOfPages pages 1 (k - 1)
      = activeOfPages pages 1 (n - 1) ++ (pages (n + 1)).filter (fun c => c.IsActive)
          ++ activeOfPages pages (n + 2) (k - (n + 2)) := by
  have hnil : (pages n).filter (fun c => c.IsActive) = [] := by
    rw [List.filter_eq_nil_iff]
    intro c hc
    simp [hinactive c hc]
  have e1 : k - 1 = (n - 1) + ((k - (n + 2)) + 1 + 1) := by omega
  have e2 : 1 + (n - 1) = n := by omega
  rw [e1, activeOfPages_append, e2, activeOfPages_succ, activeOfPages_succ, hnil,
    List.nil_append, List.append_assoc]

theorem mem_pageRequests (m k : Nat) (h1 : 1 ≤ m) (h2 : m ≤ k) :
    requestPath (pageURL (m : Int)) ∈ pageRequests 1 k := by
  simp only [pageRequests, List.mem_map, List.mem_range'_1, List.bind_eq_flatMap,
    List.mem_flatMap, List.pure_def, List.mem_singleton]
  exact ⟨(m : Int), ⟨m, ⟨h1, by omega⟩, rfl⟩, rfl⟩

/-- The loop does not return while every page it reads decodes to a list. -/
theorem fetchCommittees_fuel_out (json : JSON) (remote : Remote) (m : Nat)
    (pages : Nat → List Committee) (hint : m < 9223372036854775808)
    (hlist : ∀ j, 1 ≤ j → j ≤ m → pageResult json remote (j : Int) = (some (pages j), none)) :
    ∀ fuel reqs, fuel ≤ m → fetchCommittees json remote fuel reqs = none := by
  intro fuel reqs hf
  have hone : ((1 : Nat) : Int) = 1 := rfl
  unfold fetchCommittees
  cases fuel with
  | zero => rfl
  | succ f =>
    have hadv := fetchCommitteesLoop_advance json remote pages f 1 1 [] reqs (by omega)
      (fun j h1 h2 => hlist j h1 (by omega))
    have e : 1 + f = f + 1 := by omega
    rw [hone, e] at hadv
    rw [hadv, fetchCommitteesLoop_step json remote 0 _ _ (pages (f + 1)) _
      (hlist (f + 1) (by omega) hf)]
    rfl

/-- C10. Pages `1..n+1` decode to lists and page `n` has no active committee (it is the
empty array, or all its committees are inactive). Then `fetchCommittees` does not return
within `n+1` pages. When the pages after `n+1` decode up to a page `k` without content, the
run with fuel for `k` pages requests page `n+1` and returns the active committees of pages
`1..n-1`, then those of page `n+1`, then those of the later pages. When instead page `k`
fails, the run requests page `n+1` and returns the error. Whatever run returns has requested
pages `1..n+1`, and a result without error starts with the active committees of pages
`1..n-1` followed by those of page `n+1`. And `fetchCommittees` returns only if some page has
no content or fails. -/
theorem fetchCommittees_continues_past_empty_page (json : JSON) (remote : Remote) (n : Nat)
    (pages : Nat → List Committee) (hn : 1 ≤ n) (hint : n + 1 < 9223372036854775808)
    (hlist : ∀ j, 1 ≤ j → j ≤ n + 1 →
      pageResult json remote (j : Int) = (some (pages j), none))
    (hinactive : ∀ c ∈ pages n, c.IsActive = false) :
    (∀ fuel reqs, fuel ≤ n + 1 → fetchCommittees json remote fuel reqs = none)
    ∧ (∀ k, n + 1 < k → k < 9223372036854775808 →
        (∀ j, n + 1 < j → j < k → pageResult json remote (j : Int) = (some (pages j), none)) →
        pageResult json remote (k : Int) = (none, none) →
        requestPath (pageURL ((n + 1 : Nat) : Int)) ∈ pageRequests 1 k
        ∧ ∀ fuel reqs, k ≤ fuel → fetchCommittees json remote fuel reqs
          = some ((some (activeOfPages pages 1 (n - 1)
                ++ (pages (n + 1)).filter (fun c => c.IsActive)
                ++ activeOfPages pages (n + 2) (k - (n + 2))), none),
              reqs ++ pageRequests 1 k))
    ∧ (∀ k e, n + 1 < k → k < 9223372036854775808 →
        (∀ j, n + 1 < j → j < k → pageResult json remote (j : Int) = (some (pages j), none)) →
        (pageResult json remote (k : Int)).2 = some e →
        requestPath (pageURL ((n + 1 : Nat) : Int)) ∈ pageRequests 1 k
        ∧ ∀ fuel reqs, k ≤ fuel → fetchCommittees json remote fuel reqs
          = some ((none, some e), reqs ++ pageRequests 1 k))
    ∧ (∀ fuel reqs out, fetchCommittees json remote fuel reqs = some out →
      (∃ later, out.2 = reqs ++ pageRequests 1 (n + 1) ++ later) ∧
      (out.1.2 = none → ∃ rest, out.1.1 = some (activeOfPages pages 1 (n - 1)
          ++ (pages (n + 1)).filter (fun c => c.IsActive) ++ rest)))
    ∧ (∀ fuel reqs out, fetchCommittees json remote fuel reqs = some out →
      ∃ j : Int, pageResult json remote j = (none, none)
        ∨ ∃ e, pageResult json remote j = (none, some e)) := by
  have hone : ((1 : Nat) : Int) = 1 := rfl
  have hout := fetchCommittees_fuel_out json remote (n + 1) pages hint hlist
  have hall : ∀ k, n + 1 < k →
      (∀ j, n + 1 < j → j < k → pageResult json remote (j : Int) = (some (pages j), none)) →
      ∀ j, 1 ≤ j → j < k → pageResult json remote (j : Int) = (some (pages j), none) := by
    intro k _ hlater j h1 h2
    by_cases hj : j ≤ n + 1
    · exact hlist j h1 hj
    · exact hlater j (by omega) h2
  refine ⟨hout, ?_, ?_, ?_, ?_⟩
  · intro k hk hk63 hlater hend
    refine ⟨mem_pageRequests (n + 1) k (by omega) (by omega), fun fuel reqs hf => ?_⟩
    rw [fetchCommittees_stop_at json remote k pages (by omega) hk63 (hall k hk hlater) hend
      fuel reqs hf, activeOfPages_skip pages n k hn hk hinactive]
  · intro k e hk hk63 hlater hfail
    exact ⟨mem_pageRequests (n + 1) k (by omega) (by omega),
      fetchCommittees_fail_at json remote k pages e (by omega) hk63 (hall k hk hlater) hfail⟩
  · intro fuel reqs out h
    by_cases hf : fuel ≤ n + 1
    · rw [hout fuel reqs hf] at h
      simp at h
    · unfold fetchCommittees at h
      obtain ⟨f, rfl⟩ : ∃ f, fuel = (f + 1) + n := ⟨fuel - (n + 1), by omega⟩
      have hadv := fetchCommitteesLoop_advance json remote pages n 1 (f + 1) [] reqs (by omega)
        (fun j h1 h2 => hlist j h1 (by omega))
      have e1n : 1 + n = n + 1 := by omega
      rw [hone, e1n] at hadv
      rw [hadv, fetchCommitteesLoop_step json remote f _ _ (pages (n + 1)) _
        (hlist (n + 1) (by omega) (Nat.le_refl _))] at h
      obtain ⟨⟨later, hl⟩, hr⟩ := fetchCommitteesLoop_extends json remote f _ _ _ _ h
      have hreq : reqs ++ pageRequests 1 n ++ [requestPath (pageURL ((n + 1 : Nat) : Int))]
          = reqs ++ pageRequests 1 (n + 1) := by
        rw [List.append_assoc]
        exact congrArg (fun l => reqs ++ l) (pageRequests_concat (n + 1) (by omega))
      rw [hreq] at hl
      refine ⟨⟨later, hl⟩, fun h2 => ?_⟩
      obtain ⟨rest, hrest⟩ := hr h2
      refine ⟨rest, ?_⟩
      rw [appendActive_eq, List.nil_append] at hrest
      have hskip := activeOfPages_skip pages n (n + 2) hn (by omega) hinactive
      have e2 : n + 2 - 1 = n + 1 := by omega
      have e3 : n + 2 - (n + 2) = 0 := by omega
      rw [e2, e3] at hskip
      have hcat : activeOfPages pages 1 n ++ (pages (n + 1)).filter (fun c => c.IsActive)
          = activeOfPages pages 1 (n + 1) := by
        rw [activeOfPages_append, e1n]
        simp [activeOfPages]
      rw [hrest, hcat, hskip]
      simp [activeOfPages]
  · intro fuel reqs out h
    exact fetchCommitteesLoop_exit_cause json remote fuel _ _ _ _ h

theorem pageResult_emptyPage (j : Nat) (h1 : 1 ≤ j) (h2 : j ≤ 2) :
    pageResult sampleJSON remoteEmptyPage (j : Int) = (some (pagesEmptyFirst j), none) := by
  obtain rfl | rfl : j = 1 ∨ j = 2 := by omega
  · decide
  · decide

theorem pageResult_inactivePage (j : Nat) (h1 : 1 ≤ j) (h2 : j ≤ 2) :
    pageResult sampleJSON remoteInactivePage (j : Int)
      = (some (pagesInactiveFirst j), none) := by
  obtain rfl | rfl : j = 1 ∨ j = 2 := by omega
  · decide
  · decide

/-- C10 at two services whose page 2 lists an active committee and whose page 3 answers
404: page 1 is the empty array, and page 1 lists one inactive committee. Both runs go on to
page 2 and return its active committee. -/
theorem fetchCommittees_continues_past_empty_page_witness :
    (pageResult sampleJSON remoteEmptyPage 1 = (some [], none)
      ∧ fetchCommittees sampleJSON remoteEmptyPage 2 [] = none
      ∧ fetchCommittees sampleJSON remoteEmptyPage 3 []
        = some ((some [committeeA], none),
                [requestPath (pageURL 1), requestPath (pageURL 2), requestPath (pageURL 3)]))
    ∧ (pageResult sampleJSON remoteInactivePage 1 = (some [committeeB], none)
      ∧ fetchCommittees sampleJSON remoteInactivePage 2 [] = none
      ∧ fetchCommittees sampleJSON remoteInactivePage 3 []
        = some ((some [committeeA], none),
                [requestPath (pageURL 1), requestPath (pageURL 2), requestPath (pageURL 3)])) :=
  ⟨⟨by decide,
    (fetchCommittees_continues_past_empty_page sampleJSON remoteEmptyPage 1 pagesEmptyFirst
      (by decide) (by decide) pageResult_emptyPage (by decide)).1 2 [] (by decide),
    ((fetchCommittees_continues_past_empty_page sampleJSON remoteEmptyPage 1 pagesEmptyFirst
      (by decide) (by decide) pageResult_emptyPage (by decide)).2.1 3 (by decide) (by decide)
      (fun j h1 h2 => by omega) (by decide)).2 3 [] (Nat.le_refl 3)⟩,
   ⟨by decide,
    (fetchCommittees_continues_past_empty_page sampleJSON remoteInactivePage 1
      pagesInactiveFirst (by decide) (by decide) pageResult_inactivePage (by decide)).1 2 []
      (by decide),
    ((fetchCommittees_continues_past_empty_page sampleJSON remoteInactivePage 1
      pagesInactiveFirst (by decide) (by decide) pageResult_inactivePage (by decide)).2.1 3
      (by decide) (by decide) (fun j h1 h2 => by omega) (by decide)).2 3 []
      (Nat.le_refl 3)⟩⟩

/-! ## Search -/

theorem startsWith_iff (s sub : List Char) :
    startsWith s sub = true ↔ ∃ back, s = sub ++ back := by
  induction sub generalizing s with
  | nil => simp [startsWith]
  | cons d sub ih =>
    cases s with
    | nil => simp [startsWith]
    | cons c s =>
      simp only [startsWith, Bool.and_eq_true, beq_iff_eq, ih, List.cons_append,
        List.cons.injEq]
      constructor
      · rintro ⟨rfl, back, rfl⟩
        exact ⟨back, rfl, rfl⟩
      · rintro ⟨back, rfl, rfl⟩
        exact ⟨rfl, back, rfl⟩

theorem containsList_iff (s sub : List Char) : containsList s sub = true ↔ Occurs s sub := by
  induction s with
  | nil =>
    simp only [containsList, startsWith_iff, Occurs]
    constructor
    · rintro ⟨back, h⟩
      exact ⟨[], back, by simpa using h⟩
    · rintro ⟨front, back, h⟩
      have h2 := h.symm
      simp only [List.append_eq_nil] at h2
      exact ⟨[], by simp [h2.1.2]⟩
  | cons c s ih =>
    simp only [containsList, Bool.or_eq_true, startsWith_iff, ih, Occurs]
    constructor
    · rintro (⟨back, h⟩ | ⟨front, back, h⟩)
      · exact ⟨[], back, by simpa using h⟩
      · exact ⟨c :: front, back, by simp [h]⟩
    · rintro ⟨front, back, h⟩
      cases front with
      | nil => exact Or.inl ⟨back, by simpa using h⟩
      | cons a front =>
        simp only [List.cons_append, List.cons.injEq] at h
        exact Or.inr ⟨front, back, h.2⟩

theorem matchPat_iff (ToLower : String → String) (val pat : String) :
    matchPat ToLower val pat = true ↔ ContainsFolded ToLower val pat := by
  simp [matchPat, Contains, ContainsFolded, containsList_iff]

theorem countMatches_eq_countP (ToLower : String → String) (query : String)
    (members : List Member) :
    countMatches ToLower query members = members.countP (memberMatches ToLower query) := by
  have gen : ∀ (ms : List Member) (acc : Nat),
      ms.foldl (fun cnt m => if memberMatches ToLower query m then cnt + 1 else cnt) acc
        = acc + ms.countP (memberMatches ToLower query) := by
    intro ms
    induction ms with
    | nil => intro acc; simp
    | cons m ms ih =>
      intro acc
      rw [List.foldl_cons, ih]
      cases h : memberMatches ToLower query m
      · simp [h, List.countP_cons]
      · simp [h, List.countP_cons]
        omega
  simpa [countMatches] using gen members 0

theorem generateStep_eq (ToLower : String → String) (details : DetailsMap) (query : String)
    (data : List Result) (c : Committee) :
    generateStep ToLower details query data c
      = if 0 < matchCount ToLower details query c
        then data ++ [resultRow ToLower details query (data.length + 1) c] else data := by
  simp only [generateStep, countMatches_eq_countP, matchCount, resultRow, gt_iff_lt]

theorem foldl_generateStep (ToLower : String → String) (details : DetailsMap) (query : String)
    (cs : List Committee) :
    ∀ data : List Result,
      cs.foldl (generateStep ToLower details query) data
        = data ++ rankedFrom ToLower details query data.length
            (cs.filter (fun c => decide (0 < matchCount ToLower details query c))) := by
  induction cs with
  | nil => intro data; simp [rankedFrom]
  | cons c cs ih =>
    intro data
    rw [List.foldl_cons, generateStep_eq, ih]
    by_cases h : 0 < matchCount ToLower details query c
    · simp [h, List.filter_cons, rankedFrom]
    · simp [h, List.filter_cons]

theorem generate_eq (ToLower : String → String) (g : Globals) (query : String)
    (hq : query ≠ "") :
    generate ToLower g query
      = rankedFrom ToLower g.details query 0
          ((g.committees.getD []).filter
            (fun c => decide (0 < matchCount ToLower g.details query c))) := by
  simp [generate, hq, foldl_generateStep]

theorem rankedFrom_map_id (ToLower : String → String) (details : DetailsMap) (query : String)
    (cs : List Committee) : ∀ n,
    (rankedFrom ToLower details query n cs).map (fun r => (r.Id, r.CommitteeName))
      = cs.map (fun c => (c.Id, c.Name)) := by
  induction cs with
  | nil => intro n; rfl
  | cons c cs ih => intro n; simp [rankedFrom, resultRow, ih]

theorem rankedFrom_length (ToLower : String → String) (details : DetailsMap) (query : String)
    (cs : List Committee) : ∀ n, (rankedFrom ToLower details query n cs).length = cs.length := by
  induction cs with
  | nil => intro n; rfl
  | cons c cs ih => intro n; simp [rankedFrom, ih]

theorem rankedFrom_map_index (ToLower : String → String) (details : DetailsMap)
    (query : String) (cs : List Committee) : ∀ n,
    (rankedFrom ToLower details query n cs).map (fun r => r.Index)
      = List.range' (n + 1) cs.length := by
  induction cs with
  | nil => intro n; rfl
  | cons c cs ih => intro n; simp [rankedFrom, resultRow, ih, List.range'_succ]

theorem mem_rankedFrom (ToLower : String → String) (details : DetailsMap) (query : String)
    (cs : List Committee) (r : Result) : ∀ n,
    r ∈ rankedFrom ToLower details query n cs →
      ∃ c ∈ cs, ∃ idx, r = resultRow ToLower details query idx c := by
  induction cs with
  | nil => intro n h; simp [rankedFrom] at h
  | cons c cs ih =>
    intro n h
    simp only [rankedFrom, List.mem_cons] at h
    rcases h with h | h
    · exact ⟨c, List.mem_cons_self _ _, n + 1, h⟩
    · obtain ⟨c2, hc2, idx, hr⟩ := ih (n + 1) h
      exact ⟨c2, List.mem_cons_of_mem _ hc2, idx, hr⟩


theorem Occurs_iff_block (s sub : List Char) : Occurs s sub ↔ sub <:+: s := by
  constructor
  · rintro ⟨front, back, h⟩
    exact ⟨front, back, h.symm⟩
  · rintro ⟨front, back, h⟩
    exact ⟨front, back, h.symm⟩

/-- The counting loop over the roster `generate` reads computes the match count of the
specification. -/
theorem matchCount_eq_spec (ToLower : String → String) (details : DetailsMap) (query : String)
    (c : Committee) :
    matchCount ToLower details query c = specMatchCount ToLower details query c := by
  have hroster : (mapGet details c.Id).Members = specRoster details c.Id := by
    unfold mapGet specRoster
    cases details c.Id <;> rfl
  unfold matchCount specMatchCount
  rw [hroster, List.countP_eq_length_filter]
  congr 1
  apply List.filter_congr
  intro m _
  rw [Bool.eq_iff_iff]
  simp only [memberMatches, Bool.or_eq_true, matchPat_iff, ContainsFolded, Occurs_iff_block,
    decide_eq_true_eq, or_assoc]

/-- C2. For a non-empty query the rows built by `generate` carry, as ids and names, exactly
the committees of the Index whose match count, as the specification words it, is positive,
in Index order, and their `Index` fields are `1, 2, ..., n` in this order. -/
theorem generate_order_and_ranks (ToLower : String → String) (g : Globals) (query : String)
    (hq : query ≠ "") :
    (generate ToLower g query).map (fun r => (r.Id, r.CommitteeName))
        = ((g.committees.getD []).filter
            (fun c => decide (0 < specMatchCount ToLower g.details query c))).map
            (fun c => (c.Id, c.Name))
    ∧ (generate ToLower g query).map (fun r => r.Index)
        = List.range' 1 (generate ToLower g query).length := by
  rw [generate_eq ToLower g query hq, rankedFrom_map_id, rankedFrom_map_index,
    rankedFrom_length]
  refine ⟨?_, rfl⟩
  simp only [matchCount_eq_spec]

/-- C2 at an Index of three committees of which the first and the third match "an": the
rows are those of committees 1 and 3 with ranks 1 and 2, and these are the committees
whose match count in the words of the specification is positive. -/
theorem generate_order_and_ranks_witness :
    "an" ≠ ""
    ∧ (generate asciiToLower sampleIndex "an").map (fun r => (r.Id, r.CommitteeName))
        = [(1, "A"), (3, "C")]
    ∧ ((sampleIndex.committees.getD []).map
          (fun c => specMatchCount asciiToLower sampleIndex.details "an" c)) = [1, 0, 2]
    ∧ (generate asciiToLower sampleIndex "an").map (fun r => r.Index) = [1, 2]
    ∧ (generate asciiToLower sampleIndex "an").map (fun r => r.Match) = [1, 2]
    ∧ (generate asciiToLower sampleIndex "e").map (fun r => (r.Id, r.Index, r.Match))
        = [(1, 1, 2), (2, 2, 1), (3, 3, 2)] := by
  have h := generate_order_and_ranks asciiToLower sampleIndex "an" (by decide)
  refine ⟨by decide, ?_, by decide, ?_, by decide, by decide⟩
  · rw [h.1]; decide
  · rw [h.2]; decide

/-- C3. For a non-empty query, every row `r` built by `generate` has as `Match` the number
of members of the roster of committee `r.Id` that match on some field, each member counted
once; `Members` is the length of that roster; and `1 ≤ Match ≤ Members`. A member matches
when its first name, last name, party or canton contains the query as a case-insensitive
substring. -/
theorem generate_match_count (ToLower : String → String) (g : Globals) (query : String)
    (hq : query ≠ "") (r : Result) (hr : r ∈ generate ToLower g query) :
    (∀ m : Member, memberMatches ToLower query m = true ↔
        (ContainsFolded ToLower m.FirstName query ∨ ContainsFolded ToLower m.LastName query
          ∨ ContainsFolded ToLower m.Party query ∨ ContainsFolded ToLower m.Canton query))
    ∧ r.Match = (mapGet g.details r.Id).Members.countP (memberMatches ToLower query)
    ∧ r.Members = (mapGet g.details r.Id).Members.length
    ∧ 1 ≤ r.Match ∧ r.Match ≤ r.Members := by
  refine ⟨fun m => by simp [memberMatches, matchPat_iff, or_assoc], ?_⟩
  rw [generate_eq ToLower g query hq] at hr
  obtain ⟨c, hc, idx, rfl⟩ := mem_rankedFrom ToLower g.details query _ r 0 hr
  have hpos : 0 < matchCount ToLower g.details query c := by
    simpa using (List.mem_filter.mp hc).2
  refine ⟨rfl, rfl, hpos, ?_⟩
  exact List.countP_le_length _

/-- C3 at a roster with the first names "Anna" and "Ben" and the query "an": the row counts
one match among two members. -/
theorem generate_match_count_witness :
    "an" ≠ ""
    ∧ generate asciiToLower annaBenIndex "an" = [annaBenRow]
    ∧ annaBenRow.Match = 1
    ∧ annaBenRow.Match
        = (mapGet annaBenIndex.details annaBenRow.Id).Members.countP
            (memberMatches asciiToLower "an")
    ∧ annaBenRow.Members = (mapGet annaBenIndex.details annaBenRow.Id).Members.length
    ∧ 1 ≤ annaBenRow.Match ∧ annaBenRow.Match ≤ annaBenRow.Members :=
  ⟨by decide, by decide, rfl,
    (generate_match_count asciiToLower annaBenIndex "an" (by decide) annaBenRow
      (by decide)).2⟩

/-- Without the guard on the query every value would match: the empty text occurs
everywhere. -/
theorem Contains_empty (s : String) : Contains s "" = true := by
  simp only [Contains, containsList_iff, Occurs]
  exact ⟨[], s.data, rfl⟩

/-- C4. Whatever the Index holds, `generate` with the empty query builds no row. -/
theorem generate_empty_query (ToLower : String → String) (g : Globals) :
    generate ToLower g "" = [] := by
  simp [generate]


/-! ## Rosters and the refresh -/

theorem fetchDetails_requests (json : JSON) (remote : Remote) (i : Int) (reqs : List String) :
    fetchDetails json remote i reqs
      = (detailsResult json remote i, reqs ++ [requestPath (detailsURL i)]) := by
  simp only [detailsResult, fetchDetails]
  rw [getjson_requests remote (detailsURL i) reqs]
  rcases hg : (getjson remote (detailsURL i) []).1 with ⟨blob, err⟩
  have hg2 : getjson remote (detailsURL i) []
      = ((blob, err), [] ++ [requestPath (detailsURL i)]) := by
    rw [getjson_requests remote (detailsURL i) [], hg]
  rw [hg2]
  cases err with
  | some e => rfl
  | none =>
    simp only
    cases json.UnmarshalDetails (blob.getD []) <;> rfl

/-- C9. The decoder rejects input of length 0 with `eEmpty`, as `json.Unmarshal` does. Then
for every committee id `fetchDetails` returns the zero `CommitteeDetails` and an error when
the transport fails, when reading the body of a 200 response fails, when the endpoint
answers with a status other than 200 (the error is the decoder's `eEmpty`: no roster, empty
or not, is returned without error), and when the body of a 200 response does not decode. -/
theorem fetchDetails_errors (json : JSON) (remote : Remote) (i : Int) (reqs : List String)
    (eEmpty : Err) (hempty : json.UnmarshalDetails [] = .error eEmpty) :
    (∀ e, remote (requestPath (detailsURL i)) = .transportError e →
      (fetchDetails json remote i reqs).1 = (CommitteeDetails.zero, some e))
    ∧ (∀ body e, remote (requestPath (detailsURL i)) = .response 200 body (some e) →
      (fetchDetails json remote i reqs).1 = (CommitteeDetails.zero, some e))
    ∧ (∀ status body readErr, status ≠ 200 →
      remote (requestPath (detailsURL i)) = .response status body readErr →
      (fetchDetails json remote i reqs).1 = (CommitteeDetails.zero, some eEmpty))
    ∧ (∀ body e, remote (requestPath (detailsURL i)) = .response 200 body none →
      json.UnmarshalDetails body = .error e →
      (fetchDetails json remote i reqs).1 = (CommitteeDetails.zero, some e)) := by
  refine ⟨?_, ?_, ?_, ?_⟩
  · intro e h
    simp [fetchDetails, getjson, h]
  · intro body e h
    simp [fetchDetails, getjson, h]
  · intro status body readErr hs h
    simp [fetchDetails, getjson, h, hs, hempty]
  · intro body e h hd
    simp [fetchDetails, getjson, h, hd]

/-- C9 at a service that answers 404 for the roster of committee 3. -/
theorem fetchDetails_errors_witness :
    sampleJSON.UnmarshalDetails [] = .error "unexpected end of JSON input"
    ∧ remoteDetailMissing (requestPath (detailsURL 3)) = .response 404 [] none
    ∧ (fetchDetails sampleJSON remoteDetailMissing 3 []).1
        = (CommitteeDetails.zero, some "unexpected end of JSON input") :=
  ⟨rfl, by decide,
    (fetchDetails_errors sampleJSON remoteDetailMissing 3 [] "unexpected end of JSON input"
      rfl).2.2.1 404 [] none (by decide) (by decide)⟩


theorem storeDetails_cons (json : JSON) (remote : Remote) (c : Committee)
    (cs : List Committee) (m : DetailsMap) :
    storeDetails json remote (c :: cs) m
      = storeDetails json remote cs (mapSet m c.Id (detailsResult json remote c.Id).1) := rfl

/-- The loop over the committees when the rosters of `front` are fetched and the roster of
the next committee fails: `log.Fatal` ends the run with the map filled for `front`. -/
theorem fetchDetailsLoop_fatal (json : JSON) (remote : Remote) (c : Committee)
    (back : List Committee) (e : Err) (hfail : (detailsResult json remote c.Id).2 = some e)
    (front : List Committee) :
    ∀ (m : DetailsMap) (reqs : List String),
      (∀ a ∈ front, (detailsResult json remote a.Id).2 = none) →
      fetchDetailsLoop json remote (front ++ c :: back) m reqs
        = (.fatal e, storeDetails json remote front m,
            reqs ++ detailsRequests (front ++ [c])) := by
  induction front with
  | nil =>
    intro m reqs _
    rw [List.nil_append, fetchDetailsLoop, fetchDetails_requests]
    rcases hd : detailsResult json remote c.Id with ⟨d, err⟩
    rw [hd] at hfail
    simp only at hfail
    subst hfail
    simp [storeDetails, detailsRequests]
  | cons a front ih =>
    intro m reqs hfront
    have ha := hfront a (List.mem_cons_self _ _)
    rw [List.cons_append, fetchDetailsLoop, fetchDetails_requests]
    rcases hd : detailsResult json remote a.Id with ⟨d, err⟩
    rw [hd] at ha
    simp only at ha
    subst ha
    simp only
    rw [ih _ _ (fun b hb => hfront b (List.mem_cons_of_mem _ hb)), storeDetails_cons, hd]
    simp [detailsRequests]

/-- The loop over the committees when it runs to its end: every roster was fetched without
error and stored. -/
theorem fetchDetailsLoop_returned (json : JSON) (remote : Remote) (cs : List Committee) :
    ∀ (m : DetailsMap) (reqs : List String),
      (fetchDetailsLoop json remote cs m reqs).1 = .returned →
      (∀ c ∈ cs, (detailsResult json remote c.Id).2 = none)
        ∧ (fetchDetailsLoop json remote cs m reqs).2.1 = storeDetails json remote cs m := by
  induction cs with
  | nil => intro m reqs _; simp [fetchDetailsLoop, storeDetails]
  | cons c cs ih =>
    intro m reqs h
    rw [fetchDetailsLoop, fetchDetails_requests] at h ⊢
    rcases hd : detailsResult json remote c.Id with ⟨d, err⟩
    rw [hd] at h
    cases err with
    | some e => simp at h
    | none =>
      simp only at h ⊢
      obtain ⟨h1, h2⟩ := ih _ _ h
      refine ⟨fun a ha => ?_, ?_⟩
      · rcases List.mem_cons.mp ha with rfl | ha
        · rw [hd]
        · exact h1 a ha
      · rw [h2, storeDetails_cons, hd]

/-- Reading the map after the rosters of `cs` have been stored. -/
theorem storeDetails_apply (json : JSON) (remote : Remote) (cs : List Committee) (k : Int) :
    ∀ m : DetailsMap, storeDetails json remote cs m k
      = if k ∈ cs.map (fun c => c.Id) then some (detailsResult json remote k).1 else m k := by
  induction cs with
  | nil => intro m; simp [storeDetails]
  | cons c cs ih =>
    intro m
    rw [storeDetails_cons, ih]
    by_cases h1 : k ∈ cs.map (fun c => c.Id)
    · simp [h1]
    · by_cases h2 : k = c.Id
      · subst h2
        simp [h1, mapSet]
      · simp [h1, h2, mapSet]

/-- Every committee the loop of `fetchCommittees` returns is active. -/
theorem fetchCommitteesLoop_active (json : JSON) (remote : Remote) (fuel : Nat) :
    ∀ (i : Int) (result : List Committee) (reqs : List String)
      (out : (Option (List Committee) × Option Err) × List String),
      fetchCommitteesLoop json remote fuel i result reqs = some out →
      (∀ c ∈ result, c.IsActive = true) →
      ∀ cs, out.1.1 = some cs → ∀ c ∈ cs, c.IsActive = true := by
  induction fuel with
  | zero => intro i result reqs out h; simp [fetchCommitteesLoop] at h
  | succ fuel ih =>
    intro i result reqs out h hres cs hcs
    rw [fetchCommitteesLoop, fetchCommitteesPage_requests] at h
    rcases hp : pageResult json remote i with ⟨coms, err⟩
    rw [hp] at h
    cases err with
    | some e =>
      simp only [Option.some.injEq] at h
      subst h
      simp at hcs
    | none =>
      cases coms with
      | none =>
        simp only [Option.some.injEq] at h
        subst h
        simp only [Option.some.injEq] at hcs
        subst hcs
        exact hres
      | some page =>
        simp only at h
        refine ih _ _ _ _ h ?_ cs hcs
        intro c hc
        rw [appendActive_eq, List.mem_append, List.mem_filter] at hc
        rcases hc with hc | hc
        · exact hres c hc
        · exact hc.2

/-- C5, as the code has it. The listing succeeds with `cs`, the rosters of the committees
`front` are fetched and the roster of the next committee `c` fails with `e`. Then `fetch`
does not return: `log.Fatal` ends the process with `e`, after the roster requests up to `c`
and none after. The globals are overwritten all the same: `committees` holds `cs` and
`details` is a new map holding the rosters of `front` only. -/
theorem fetch_detail_failure_fatal (json : JSON) (remote : Remote) (fuel : Nat) (g : Globals)
    (reqs reqs1 : List String) (cs front back : List Committee) (c : Committee) (e : Err)
    (hlisting : fetchCommittees json remote fuel reqs = some ((some cs, none), reqs1))
    (hsplit : cs = front ++ c :: back)
    (hfront : ∀ a ∈ front, (detailsResult json remote a.Id).2 = none)
    (hfail : (detailsResult json remote c.Id).2 = some e) :
    fetch json remote fuel g reqs
      = some { exit := .fatal e,
               globals := { committees := some cs,
                            details := storeDetails json remote front emptyMap },
               requests := reqs1 ++ detailsRequests (front ++ [c]) } := by
  subst hsplit
  simp only [fetch, hlisting, Option.getD_some]
  rw [fetchDetailsLoop_fatal json remote c back e hfail front emptyMap reqs1 hfront]

/-- C5 as stated fails. The listing has the active committees 1 and 3, the roster of
committee 1 is served and the roster of committee 3 answers 404. Started with nil globals,
`fetch` ends in `log.Fatal` with `committees` set to the two committees and `details`
holding the roster of committee 1 and nothing for committee 3. -/
theorem fetch_detail_failure_counterexample :
    (fetchCommittees sampleJSON remoteDetailMissing 2 []).map (fun out => out.1)
        = some (some [committeeA, committeeC], none)
    ∧ detailsResult sampleJSON remoteDetailMissing 3
        = (CommitteeDetails.zero, some "unexpected end of JSON input")
    ∧ (fetch sampleJSON remoteDetailMissing 2 initialGlobals []).map (fun out => out.exit)
        = some (.fatal "unexpected end of JSON input")
    ∧ (fetch sampleJSON remoteDetailMissing 2 initialGlobals []).map
          (fun out => out.globals.committees) = some (some [committeeA, committeeC])
    ∧ initialGlobals.committees = none
    ∧ (fetch sampleJSON remoteDetailMissing 2 initialGlobals []).map
          (fun out => (out.globals.details 1, out.globals.details 3))
        = some (some rosterA, none)
    ∧ initialGlobals.details 1 = none := by
  decide

/-- C5 (as the code has it) at the service of the counterexample. -/
theorem fetch_detail_failure_fatal_witness :
    fetchCommittees sampleJSON remoteDetailMissing 2 []
        = some ((some [committeeA, committeeC], none),
                [requestPath (pageURL 1), requestPath (pageURL 2)])
    ∧ (detailsResult sampleJSON remoteDetailMissing committeeA.Id).2 = none
    ∧ (detailsResult sampleJSON remoteDetailMissing committeeC.Id).2
        = some "unexpected end of JSON input"
    ∧ fetch sampleJSON remoteDetailMissing 2 initialGlobals []
        = some { exit := .fatal "unexpected end of JSON input",
                 globals := { committees := some [committeeA, committeeC],
                              details := storeDetails sampleJSON remoteDetailMissing
                                [committeeA] emptyMap },
                 requests := [requestPath (pageURL 1), requestPath (pageURL 2)]
                   ++ detailsRequests ([committeeA] ++ [committeeC]) } :=
  ⟨by decide, by decide, by decide,
    fetch_detail_failure_fatal sampleJSON remoteDetailMissing 2 initialGlobals []
      [requestPath (pageURL 1), requestPath (pageURL 2)] [committeeA, committeeC]
      [committeeA] [] committeeC "unexpected end of JSON input"
      (by decide) rfl
      (fun a ha => by
        obtain rfl : a = committeeA := by simpa using ha
        decide)
      (by decide)⟩


/-- The loop over the committees when every roster is fetched without error: it runs to
its end and has stored every roster. -/
theorem fetchDetailsLoop_all (json : JSON) (remote : Remote) (cs : List Committee) :
    ∀ (m : DetailsMap) (reqs : List String),
      (∀ c ∈ cs, (detailsResult json remote c.Id).2 = none) →
      fetchDetailsLoop json remote cs m reqs
        = (.returned, storeDetails json remote cs m, reqs ++ detailsRequests cs) := by
  induction cs with
  | nil => intro m reqs _; simp [fetchDetailsLoop, storeDetails, detailsRequests]
  | cons c cs ih =>
    intro m reqs hall
    have hc := hall c (List.mem_cons_self _ _)
    rw [fetchDetailsLoop, fetchDetails_requests]
    rcases hd : detailsResult json remote c.Id with ⟨d, err⟩
    rw [hd] at hc
    simp only at hc
    subst hc
    simp only
    rw [ih _ _ (fun b hb => hall b (List.mem_cons_of_mem _ hb)), storeDetails_cons, hd]
    simp [detailsRequests]

/-- Whenever `fetch` returns, the listing and every roster fetch succeeded and the globals
hold the listed committees and a map with exactly their rosters. -/
theorem fetch_returned (json : JSON) (remote : Remote) (fuel : Nat) (g : Globals)
    (reqs : List String)
    (hret : (fetch json remote fuel g reqs).map (fun out => out.exit) = some Exit.returned) :
    ∃ cs reqs1, fetchCommittees json remote fuel reqs = some ((some cs, none), reqs1)
      ∧ (∀ c ∈ cs, (detailsResult json remote c.Id).2 = none) := by
  unfold fetch at hret
  cases hl : fetchCommittees json remote fuel reqs with
  | none => rw [hl] at hret; simp at hret
  | some res =>
    obtain ⟨⟨coms, err⟩, reqs1⟩ := res
    rw [hl] at hret
    cases err with
    | some e => simp at hret
    | none =>
      obtain ⟨rest, hrest⟩ :=
        (fetchCommitteesLoop_extends json remote fuel 1 [] reqs _ hl).2 rfl
      simp only [List.nil_append] at hrest
      subst hrest
      simp only [Option.getD_some, Option.map_some', Option.some.injEq] at hret
      exact ⟨rest, reqs1, rfl,
        (fetchDetailsLoop_returned json remote rest emptyMap reqs1 hret).1⟩

/-- C6. The listing succeeds with `cs` and the roster fetch of every committee in `cs`
succeeds. Then `fetch` returns and the Index it leaves is well formed: `committees` is `cs`,
every committee in it is active; every id in it is a key of `details`, bound to the roster
`fetchDetails` returns for that id; and `details` has no key outside the ids of `cs`. -/
theorem fetch_index_well_formed (json : JSON) (remote : Remote) (fuel : Nat) (g : Globals)
    (reqs reqs1 : List String) (cs : List Committee)
    (hlisting : fetchCommittees json remote fuel reqs = some ((some cs, none), reqs1))
    (hdetails : ∀ c ∈ cs, (detailsResult json remote c.Id).2 = none) :
    fetch json remote fuel g reqs
        = some { exit := .returned,
                 globals := { committees := some cs,
                              details := storeDetails json remote cs emptyMap },
                 requests := reqs1 ++ detailsRequests cs }
    ∧ (∀ c ∈ cs, c.IsActive = true)
    ∧ (∀ c ∈ cs, detailsResult json remote c.Id = ((detailsResult json remote c.Id).1, none)
        ∧ storeDetails json remote cs emptyMap c.Id = some (detailsResult json remote c.Id).1)
    ∧ (∀ k, storeDetails json remote cs emptyMap k ≠ none → ∃ c ∈ cs, c.Id = k) := by
  refine ⟨?_, ?_, ?_, ?_⟩
  · simp only [fetch, hlisting, Option.getD_some]
    rw [fetchDetailsLoop_all json remote cs emptyMap reqs1 hdetails]
  · exact fetchCommitteesLoop_active json remote fuel 1 [] reqs _ hlisting
      (fun c hc => by simp at hc) cs rfl
  · intro c hc
    refine ⟨Prod.ext rfl (hdetails c hc), ?_⟩
    rw [storeDetails_apply]
    simp only [List.mem_map]
    rw [if_pos ⟨c, hc, rfl⟩]
  · intro k hk
    rw [storeDetails_apply] at hk
    by_cases hmem : k ∈ cs.map (fun c => c.Id)
    · obtain ⟨c, hc, rfl⟩ := List.mem_map.mp hmem
      exact ⟨c, hc, rfl⟩
    · rw [if_neg hmem] at hk
      exact absurd rfl hk

/-- C6 at a listing with committee 1 (active) and committee 2 (inactive): `fetch` returns
and the Index holds committee 1 alone, with its roster. -/
theorem fetch_index_well_formed_witness :
    fetchCommittees sampleJSON remoteOnePage 2 []
        = some ((some [committeeA], none), [requestPath (pageURL 1), requestPath (pageURL 2)])
    ∧ (∀ c ∈ [committeeA], (detailsResult sampleJSON remoteOnePage c.Id).2 = none)
    ∧ (fetch sampleJSON remoteOnePage 2 initialGlobals []).map
          (fun out => (out.exit, out.globals.committees, out.globals.details 1,
            out.globals.details 2))
        = some (Exit.returned, some [committeeA], some rosterA, none)
    ∧ fetch sampleJSON remoteOnePage 2 initialGlobals []
        = some { exit := .returned,
                 globals := { committees := some [committeeA],
                              details := storeDetails sampleJSON remoteOnePage [committeeA]
                                emptyMap },
                 requests := [requestPath (pageURL 1), requestPath (pageURL 2)]
                   ++ detailsRequests [committeeA] } :=
  ⟨by decide, by decide, by decide,
    (fetch_index_well_formed sampleJSON remoteOnePage 2 initialGlobals []
      [requestPath (pageURL 1), requestPath (pageURL 2)] [committeeA]
      (by decide) (by decide)).1⟩

end Komitees
